import Mathlib

/-!
Shallow embedding of the Whsp recording-processing backend
(apps/backend/src/routes/audio.ts, apps/backend/src/routes/export.ts,
apps/backend/src/services/database.ts, the export file service,
apps/backend/src/templates/markdown.ts, the audio encryption utility, and
the frontend confidence indicator in apps/frontend/app/page.tsx),
together with proofs about its pipeline state machine, retry behaviour,
export lifecycle, markdown round-trip and encryption layout.

Conventions:
- JS strings are Lean `String`, buffers are `List Nat` (one `Nat` per byte).
- The MySQL column `confidence_score DECIMAL(5,4)` is represented exactly
  as a `Nat` counting ten-thousandths (so `8512` stands for `0.8512`).
- Timestamps are `Nat` milliseconds since the epoch.
- Fallible/async operations are made explicit: the outcome of each external
  call (AI service response, file lookups) is an input of the embedding.
-/

namespace Whsp

/-- `RecordingMode` from `routes/audio.ts` / `services/database.ts`. -/
inductive RecordingMode where
  | lecture
  | meeting
  | interview
  | custom
deriving DecidableEq, Repr

/-- The TS string value of a mode (modes are plain strings in the source). -/
def RecordingMode.str : RecordingMode → String
  | .lecture => "lecture"
  | .meeting => "meeting"
  | .interview => "interview"
  | .custom => "custom"

/-- Recording status from `services/database.ts`:
`'uploaded' | 'processing' | 'completed' | 'failed'`. -/
inductive Status where
  | uploaded
  | processing
  | completed
  | failed
deriving DecidableEq, Repr

/-- A segment `{start, end, text}` from `services/database.ts`
(the `end` field is called `stop` because `end` is a Lean keyword). -/
structure Segment where
  start : Nat
  stop : Nat
  text : String
deriving DecidableEq, Repr

/-- The `Recording` row of `services/database.ts` (the columns of the
`recordings` table that the claims touch).  `confidence_score` is the
`DECIMAL(5,4)` column in ten-thousandths. -/
structure Recording where
  id : String
  format : String
  duration_seconds : Nat
  mode : RecordingMode
  status : Status
  file_path : String
  raw_transcript : Option String := none
  clean_transcript : Option String := none
  confidence_score : Option Nat := none
  language : Option String := none
  processing_time : Option String := none
  segments : Option (List Segment) := none
  created_at : Option String := none
deriving DecidableEq, Repr

/-- The row returned by `database.getSummary` (the summaries service is
called from `routes/audio.ts` and `routes/export.ts`). -/
structure SummaryRow where
  summary : String
  mode : RecordingMode
  tokens : Nat
  confidence : Nat
deriving DecidableEq, Repr

/-- The value `callAIService` resolves with on success
(`routes/audio.ts`, return type of `callAIService`). -/
structure AIResult where
  rawTranscript : String
  cleanTranscript : String
  confidence : Nat
  language : String
  processingTime : String
  segments : List Segment
  summary : Option String := none
  summaryMode : Option RecordingMode := none
  summaryTokens : Option Nat := none
deriving Repr

/-- Environment of one `processAudioAsync` run (`routes/audio.ts`):
whether `database.getRecording` finds the row, whether `storage.readAudio`
finds the file, and the outcome of the n-th call to the AI service
(`none` = the call throws / responds non-ok). -/
structure ProcEnv where
  recordingFound : Bool
  audioFound : Bool
  aiResponse : Nat → Option AIResult

/-- Embedding of `processAudioAsync` (`routes/audio.ts`, lines 324-367).
Returns the sequence of `status` values written to the database, in order,
together with the number of attempts made against the AI service.

The source makes the writes:
1. `updateRecordingStatus(id, 'processing')`;
2. on success, `saveTranscriptionResult` (which sets `status = 'completed'`);
3. in the `catch`, `updateRecordingStatus(id, 'failed')`.
There is no retry loop: `callAIService` is invoked exactly once, and any
thrown error (recording missing, audio missing, AI error) lands in the
`catch` block. -/
def processAudioAsync (env : ProcEnv) : List Status × Nat :=
  if !env.recordingFound then
    ([.processing, .failed], 0)
  else if !env.audioFound then
    ([.processing, .failed], 0)
  else
    match env.aiResponse 0 with
    | none => ([.processing, .failed], 1)
    | some _ => ([.processing, .completed], 1)

/-- The full status history of one recording: `createRecording` inserts the
row with `status = 'uploaded'` (`services/database.ts`), after which the
only writers of `status` are the writes of `processAudioAsync`, which the
upload route triggers exactly once per recording. -/
def statusTrace (env : ProcEnv) : List Status :=
  .uploaded :: (processAudioAsync env).1

/-- The transitions the spec's state machine allows:
uploaded → processing → {completed, failed}. -/
def allowedTransition : Status → Status → Bool
  | .uploaded, .processing => true
  | .processing, .completed => true
  | .processing, .failed => true
  | _, _ => false

/-- Terminal states of the state machine. -/
def isTerminal : Status → Bool
  | .completed => true
  | .failed => true
  | _ => false

/-- Transcript object of the completed results payload
(`routes/audio.ts`, `GET /:id/results`). -/
structure TranscriptPayload where
  rawText : String
  cleanText : String
  confidenceScore : Nat
  language : String
  processingTime : String
  segments : List Segment
deriving DecidableEq, Repr

/-- Summary object of the completed results payload. -/
structure SummaryPayload where
  text : String
  mode : RecordingMode
  tokens : Nat
  confidence : Nat
deriving DecidableEq, Repr

/-- The JSON bodies `GET /api/audio/:id/results` can answer with. -/
inductive ResultsPayload where
  | notFoundError (error : String)
  | processingMsg (message : String)
  | failedMsg (error : String)
  | completedPayload (transcript : TranscriptPayload) (summary : Option SummaryPayload)
  | uploadedMsg (message : String)
deriving DecidableEq, Repr

/-- Embedding of `GET /api/audio/:id/results` (`routes/audio.ts`,
lines 150-214): the response as a function of the recording row and of the
`database.getSummary` result. -/
def resultsHandler (rec : Option Recording) (summaryRow : Option SummaryRow) :
    ResultsPayload :=
  match rec with
  | none => .notFoundError "Recording not found"
  | some r =>
    match r.status with
    | .processing => .processingMsg "Audio is still being processed"
    | .failed => .failedMsg "Processing failed"
    | .completed =>
        .completedPayload
          ⟨r.raw_transcript.getD "", r.clean_transcript.getD "",
            r.confidence_score.getD 0, r.language.getD "unknown",
            r.processing_time.getD "0s", r.segments.getD []⟩
          (summaryRow.map fun s => ⟨s.summary, s.mode, s.tokens, s.confidence⟩)
    | .uploaded => .uploadedMsg "Audio is queued for processing"

/-- `true` iff `pat` occurs as a contiguous substring of `s`
(JS `String.prototype.includes`). -/
def strContains (s pat : String) : Bool :=
  decide (pat.data <:+: s.data)

/-- A failed recording that produced a raw transcript before failing
(concrete instance used to evaluate the failed-results payload). -/
def recFailedExample : Recording :=
  { id := "rec_1700000000000_abcd1234"
    format := "webm"
    duration_seconds := 30
    mode := .interview
    status := .failed
    file_path := "data/recordings/rec_1700000000000_abcd1234/audio.webm"
    raw_transcript := some "um so uh what was your role" }

/-- The decimal digits of `n`, most significant first, with enough fuel
(structural recursion so that concrete values compute by `rfl`). -/
def natDigitsAux : Nat → Nat → List Nat
  | 0, _ => []
  | fuel + 1, n => if n < 10 then [n] else natDigitsAux fuel (n / 10) ++ [n % 10]

/-- The decimal digits of `n`, most significant first (JS number-to-string
for integers, e.g. `851 ↦ [8,5,1]`). -/
def natDigits (n : Nat) : List Nat := natDigitsAux (n + 1) n

/-- The character of a decimal digit. -/
def digitChar (d : Nat) : Char := Char.ofNat (48 + d)

/-- Decimal string of a natural number (JS `${n}` for integers). -/
def natToString (n : Nat) : String := ⟨(natDigits n).map digitChar⟩

/-- Bit length of `n` (fuel-based; correct for every `n < 2 ^ 100`, far
beyond the values this embedding produces). -/
def bitLenAux : Nat → Nat → Nat
  | 0, _ => 0
  | fuel + 1, n => if n = 0 then 0 else bitLenAux fuel (n / 2) + 1

/-- Bit length of `n`. -/
def bitLen (n : Nat) : Nat := bitLenAux 100 n

/-- The smallest scale `s` with `⌊p * 2 ^ s / den⌋ ≥ 2 ^ 52` (fuel-based;
for `1 ≤ p ≤ 99999`, `den = 10000` it is found well within the fuel). -/
def findScaleAux : Nat → Nat → Nat → Nat → Nat
  | 0, _, _, s => s
  | fuel + 1, p, den, s =>
    if 2 ^ 52 ≤ p * 2 ^ s / den then s else findScaleAux fuel p den (s + 1)

/-- See `findScaleAux`. -/
def findScale (p den : Nat) : Nat := findScaleAux 100 p den 0

/-- `round(p * 2 ^ s / den)` with IEEE-754 ties-to-even: the 53-bit
significand of the double nearest to `p / den`. -/
def roundSigRat (p den s : Nat) : Nat :=
  let m := p * 2 ^ s / den
  let r := p * 2 ^ s % den
  if den < 2 * r then m + 1 else if 2 * r = den then m + m % 2 else m

/-- Round the dyadic value `a / 2 ^ t` to 53 significant bits
(IEEE-754 ties-to-even), returning the new numerator and scale.
Assumes `bitLen a - 53 ≤ t`, true throughout this pipeline. -/
def roundDyadic53 (a t : Nat) : Nat × Nat :=
  let L := bitLen a
  if L ≤ 53 then (a, t)
  else
    let sh := L - 53
    let m := a / 2 ^ sh
    let r := a % 2 ^ sh
    (if 2 ^ sh < 2 * r then m + 1 else if 2 * r = 2 ^ sh then m + m % 2 else m,
      t - sh)

/-- `⌊10 * (a / 2 ^ t) + 1 / 2⌋`: the integer `n` minimizing
`|n / 10 - x|` with ties to the larger `n`, as `Number.prototype.toFixed`
specifies (ES2023, applied to the exact value of the double `x`). -/
def tenthsTiesUp (a t : Nat) : Nat := (20 * a + 2 ^ t) / 2 ^ (t + 1)

/-- The integer tenths-of-a-percent the program prints for a stored
`DECIMAL(5,4)` score of `q` ten-thousandths.  Faithful to the JS chain:
`Number(row.confidence_score)` yields the binary64 double nearest to
`q / 10000`; `confidenceScore * 100` is an IEEE-754 multiplication
(round to nearest, ties to even); `toFixed(1)` then picks the tenths
value nearest to that double's exact value, ties toward the larger.
(Checked against an IEEE binary64 reference on every `q ≤ 99999`.) -/
def jsToFixedTenths (q : Nat) : Nat :=
  if q = 0 then 0
  else
    let s := findScale q 10000
    let m := roundSigRat q 10000 s
    let p := roundDyadic53 (100 * m) s
    tenthsTiesUp p.1 p.2

/-- Decimal rendering `"w.f%"` of a tenths-of-a-percent value `v`. -/
def percentStringOf (v : Nat) : String :=
  natToString (v / 10) ++ "." ++ natToString (v % 10) ++ "%"

/-- `(confidenceScore * 100).toFixed(1) + "%"` from
`templates/markdown.ts`, on a stored `DECIMAL(5,4)` value of `q`
ten-thousandths, with `toFixed` modelled on the binary double
(`jsToFixedTenths`). -/
def confidencePercentString (q : Nat) : String :=
  percentStringOf (jsToFixedTenths q)

/-- `ExportData.transcript` from `templates/markdown.ts`
(`confidenceScore` again in ten-thousandths). -/
structure ExportTranscript where
  rawText : String
  cleanText : String
  confidenceScore : Nat
  segments : List Segment
deriving DecidableEq, Repr

/-- `ExportData.summary` from `templates/markdown.ts`. -/
structure ExportSummary where
  text : String
  mode : String
  tokens : Nat
  confidence : Nat
deriving DecidableEq, Repr

/-- `ExportData` from `templates/markdown.ts`. -/
structure ExportData where
  recordingId : String
  mode : String
  createdAt : String
  language : String
  transcript : ExportTranscript
  summary : Option ExportSummary
deriving DecidableEq, Repr

/-- The metadata section of the `lines` array built by `generateMarkdown`
(`templates/markdown.ts`, lines 161-210; the array is split here into its
metadata, summary and body runs).  `now` is the embedded generation
timestamp (`new Date().toISOString()`).  JS truthiness:
`data.summary && data.summary.text` is falsy when the summary is absent or
its text is the empty string, and `s || 'fallback'` is `'fallback'`
exactly when `s` is empty. -/
def mdMetaLines (data : ExportData) : List String :=
  ["# Whisper Export", "", "---", "",
    "## Metadata", "",
    "- **Recording ID**: " ++ data.recordingId,
    "- **Mode**: " ++ data.mode,
    "- **Created**: " ++ data.createdAt,
    "- **Language**: " ++ data.language,
    "- **Confidence**: " ++ confidencePercentString data.transcript.confidenceScore]

/-- The summary block of the `lines` array (pushed only when
`data.summary && data.summary.text` is truthy). -/
def mdSummaryLines (data : ExportData) : List String :=
  match data.summary with
  | some s => if s.text = "" then [] else ["## Summary", "", s.text, "", "---", ""]
  | none => []

/-- The transcript/footer block of the `lines` array. -/
def mdBodyLines (data : ExportData) (now : String) : List String :=
  ["## Transcript", "",
    (if data.transcript.cleanText = "" then "No transcript available"
      else data.transcript.cleanText),
    "", "---", "",
    "## Raw Transcript", "",
    (if data.transcript.rawText = "" then "No raw transcript available"
      else data.transcript.rawText),
    "",
    "---",
    "*Exported from Whsp on " ++ now ++ "*"]

/-- The full `lines` array: metadata bullets, the closing `"" , ---, ""`
of the metadata section, then the summary block and the body. -/
def generateMarkdownLines (data : ExportData) (now : String) : List String :=
  mdMetaLines data ++
    ("" :: "---" :: "" :: (mdSummaryLines data ++ mdBodyLines data now))

/-- JS `Array.prototype.join('\n')`. -/
def joinLines : List String → String
  | [] => ""
  | [l] => l
  | l :: ls => l ++ "\n" ++ joinLines ls

/-- `generateMarkdown` (`templates/markdown.ts`): the lines joined with
newlines. -/
def generateMarkdown (data : ExportData) (now : String) : String :=
  joinLines (generateMarkdownLines data now)

/-- Parser side of the round-trip: split a string at every newline. -/
def splitLines : List Char → List (List Char)
  | [] => [[]]
  | c :: rest =>
    match splitLines rest with
    | [] => [[c]]
    | l :: ls => if c = '\n' then [] :: l :: ls else (c :: l) :: ls

/-- The lines of a markdown document. -/
def mdLines (md : String) : List String :=
  (splitLines md.data).map fun cs => ⟨cs⟩

/-- If `pre` is a leading piece of `l`, the remainder of `l`; else `none`. -/
def extractAfter (pre l : String) : Option String :=
  if l.data.take pre.data.length = pre.data then
    some ⟨l.data.drop pre.data.length⟩
  else
    none

/-- The value of the first metadata bullet `- **label**: value` among the
given lines. -/
def fieldOf (lines : List String) (label : String) : Option String :=
  (lines.filterMap fun l => extractAfter ("- **" ++ label ++ "**: ") l).head?

/-- Parse one metadata field back out of a generated markdown document. -/
def parseField (md label : String) : Option String :=
  fieldOf (mdLines md) label

/-- Numeric value of a decimal digit character. -/
def charDigit (c : Char) : Nat := c.toNat - 48

/-- Value of a big-endian digit list. -/
def digitsVal (ds : List Nat) : Nat := ds.foldl (fun a d => a * 10 + d) 0

/-- Read a percentage string with one decimal (`"85.1%"`) back into
ten-thousandths of the underlying score (`8510`): one tenth of a percent
is ten ten-thousandths. -/
def parsePercentMyriad (s : String) : Nat :=
  10 * digitsVal ((s.data.filter fun c => c.isDigit).map charDigit)

/-- Parse the confidence score (in ten-thousandths) back out of a
generated markdown document. -/
def parseConfidence (md : String) : Option Nat :=
  (parseField md "Confidence").map parsePercentMyriad

/-- The `exportData` object both export routes assemble
(`routes/export.ts`, lines 48-65 and 154-171). -/
def exportDataOf (rec : Recording) (summaryRow : Option SummaryRow) (now : String) :
    ExportData :=
  { recordingId := rec.id
    mode := rec.mode.str
    createdAt := rec.created_at.getD now
    language := rec.language.getD "unknown"
    transcript :=
      { rawText := rec.raw_transcript.getD ""
        cleanText := rec.clean_transcript.getD ""
        confidenceScore := rec.confidence_score.getD 0
        segments := rec.segments.getD [] }
    summary := summaryRow.map fun s => ⟨s.summary, s.mode.str, s.tokens, s.confidence⟩ }

/-- Outcomes of the export-generation routes. -/
inductive ExportOutcome where
  | validationError (error : String)
  | notFound (error : String)
  | renderError (error : String) (status : Status)
  | document (content : String)
deriving DecidableEq, Repr

/-- The shared guard-and-generate logic of `GET /api/export` and
`POST /api/export` (`routes/export.ts`, lines 16-113 and 119-234):
validate the format, look up the recording, reject with the RenderError
response `'Recording is still processing or failed'` (HTTP 400) when the
status is not `completed`, and otherwise render the document.
`docxRender` and `pdfRender` stand for the external docx/pdfkit
renderers. -/
def exportHandler (docxRender pdfRender : ExportData → String) (now : String)
    (rec : Option Recording) (summaryRow : Option SummaryRow) (format : String) :
    ExportOutcome :=
  if ¬(format = "md" ∨ format = "docx" ∨ format = "pdf") then
    .validationError "Invalid format. Must be one of: md, docx, pdf"
  else
    match rec with
    | none => .notFound "Recording not found"
    | some r =>
      if r.status ≠ .completed then
        .renderError "Recording is still processing or failed" r.status
      else
        let data := exportDataOf r summaryRow now
        .document
          (if format = "md" then generateMarkdown data now
            else if format = "docx" then docxRender data
            else pdfRender data)

/-- One file on disk under `EXPORT_DIR/<recordingId>/<filename>`
(the export service's storage layout). -/
structure StoredFile where
  recordingId : String
  filename : String
  content : List Nat
  birthtime : Nat
deriving DecidableEq, Repr

/-- `EXPORT_EXPIRY_MS = 15 * 60 * 1000` from the export service. -/
def EXPORT_EXPIRY_MS : Nat := 15 * 60 * 1000

/-- The record `getExportInfo` returns. -/
structure ExportFileInfo where
  id : String
  recordingId : String
  format : String
  createdAt : Nat
  expiresAt : Nat
  downloadCount : Nat
deriving DecidableEq, Repr

/-- `path.extname(filename).slice(1)`: the piece after the last dot, `""`
when the name has no dot (names here always look like `base.ext`). -/
def extnameAfterDot (name : String) : String :=
  if '.' ∈ name.data then ⟨(name.data.reverse.takeWhile fun c => c ≠ '.').reverse⟩
  else ""

/-- `saveExport` (export service): write the file under the recording's
directory.  The flat list models the directory tree in traversal order. -/
def saveExport (store : List StoredFile) (recordingId filename : String)
    (content : List Nat) (now : Nat) : List StoredFile :=
  store ++ [⟨recordingId, filename, content, now⟩]

/-- `getExportInfo` (export service): the first file, in directory
traversal order, whose name contains the export id
(`files.find((f) => f.includes(exportId))`); its expiry is
`birthtime + EXPORT_EXPIRY_MS`. -/
def getExportInfo (store : List StoredFile) (exportId : String) :
    Option ExportFileInfo :=
  (store.find? fun f => strContains f.filename exportId).map fun f =>
    ⟨exportId, f.recordingId, extnameAfterDot f.filename, f.birthtime,
      f.birthtime + EXPORT_EXPIRY_MS, 0⟩

/-- `readExport` (export service): same search, returning the bytes. -/
def readExport (store : List StoredFile) (exportId : String) : Option (List Nat) :=
  (store.find? fun f => strContains f.filename exportId).map (·.content)

/-- `deleteExport recordingId filename` (export service): unlink the exact
path `EXPORT_DIR/recordingId/filename` if it exists, reporting whether
anything was removed. -/
def deleteExport (store : List StoredFile) (recordingId filename : String) :
    List StoredFile × Bool :=
  if store.any fun f => f.recordingId == recordingId && f.filename == filename then
    (store.filter fun f => !(f.recordingId == recordingId && f.filename == filename), true)
  else
    (store, false)

/-- The file-saving step of `POST /api/export` (`routes/export.ts`, lines
202-214): the filename is `export-<recordingId>-<exportId>.<extension>`. -/
def createExportFile (store : List StoredFile) (recordingId exportId extension : String)
    (content : List Nat) (now : Nat) : List StoredFile :=
  saveExport store recordingId
    ("export-" ++ recordingId ++ "-" ++ exportId ++ "." ++ extension) content now

/-- Outcomes of `GET /api/export/:id`. -/
inductive DownloadResult where
  | notFound (error : String)
  | expired (error : String)
  | fileMissing (error : String)
  | bytes (content : List Nat) (expiresAt : Nat)
deriving DecidableEq, Repr

/-- `GET /api/export/:id` (`routes/export.ts`, lines 239-290): 404
`'Export not found or expired'` when no stored name contains the id, 410
`'Export has expired'` when `new Date() > expiresAt`, otherwise the raw
bytes plus expiry metadata. -/
def downloadExport (store : List StoredFile) (now : Nat) (exportId : String) :
    DownloadResult :=
  match getExportInfo store exportId with
  | none => .notFound "Export not found or expired"
  | some info =>
    if info.expiresAt < now then .expired "Export has expired"
    else
      match readExport store exportId with
      | none => .fileMissing "Export file not found"
      | some b => .bytes b info.expiresAt

/-- Outcomes of `DELETE /api/export/:id`. -/
inductive DeleteResult where
  | notFound (error : String)
  | fileNotFound (error : String)
  | success
deriving DecidableEq, Repr

/-- `DELETE /api/export/:id` (`routes/export.ts`, lines 295-331): looks the
artifact up, then unlinks the path rebuilt as `<exportId>.<format>`. -/
def deleteExportEndpoint (store : List StoredFile) (exportId : String) :
    List StoredFile × DeleteResult :=
  match getExportInfo store exportId with
  | none => (store, .notFound "Export not found")
  | some info =>
    let r := deleteExport store info.recordingId (info.id ++ "." ++ info.format)
    if r.2 then (r.1, .success) else (r.1, .fileNotFound "Export file not found")

/-- `getConfidenceText` from `apps/frontend/app/page.tsx` (lines 178-183),
the only low-confidence indication shown to the caller.  The JS number
score is embedded as `ℚ`; `none` models a `null` score. -/
def getConfidenceText (score : Option ℚ) : String :=
  match score with
  | none => "Waiting..."
  | some s =>
    if s ≥ 0.8 then "High Quality"
    else if s ≥ 0.6 then "Medium Quality"
    else "Low Quality"

/-- Modelled from the spec: the per-mode maximum summary output size of the
AI service's summarization stage (the `/process/full` pipeline behind
`callAIService` in `routes/audio.ts`; the service itself is not among the
backend sources): Lecture 400, Meeting 300, Interview 350, Custom 500
token-equivalent units. -/
def modeTokenBudget : RecordingMode → Nat
  | .lecture => 400
  | .meeting => 300
  | .interview => 350
  | .custom => 500

/-- Modelled from the spec: the summarization generation call emits the
summary up to its natural token length but stops at the mode's budget —
the truncation happens inside the generation call, not as post-hoc string
cutting.  Returns the number of token-equivalent units produced. -/
def generateSummaryTokens (mode : RecordingMode) (naturalTokens : Nat) : Nat :=
  min naturalTokens (modeTokenBudget mode)

/-- AES-256-GCM as consumed by the audio encryption utility: a cipher is a
deterministic keystream (byte `i` of the CTR pad for a given key and iv)
together with a deterministic 16-byte authentication tag of key, iv and
ciphertext.  `crypto.createCipheriv` and `crypto.createDecipheriv` with
the same key and iv produce the same keystream, and `decipher.final()`
verifies the tag. -/
structure GcmCipher where
  pad : List Nat → List Nat → Nat → Nat
  authTag : List Nat → List Nat → List Nat → List Nat
  authTag_length : ∀ key iv ct, (authTag key iv ct).length = 16

/-- XOR a buffer bytewise against the keystream (GCM's CTR core; both
encryption and decryption). -/
def xorPad (ks : Nat → Nat) : List Nat → List Nat
  | [] => []
  | b :: rest => (b ^^^ ks 0) :: xorPad (fun i => ks (i + 1)) rest

/-- `IV_LENGTH = 16` from the encryption utility. -/
def IV_LENGTH : Nat := 16

/-- `TAG_LENGTH = 16` from the encryption utility. -/
def TAG_LENGTH : Nat := 16

/-- `encryptAudio` (encryption utility, lines 132-148): with the key
derived deterministically from the environment and a random 16-byte `iv`,
produce `IV ++ Tag ++ encrypted`. -/
def encryptAudio (C : GcmCipher) (key iv buffer : List Nat) : List Nat :=
  let encrypted := xorPad (C.pad key iv) buffer
  iv ++ C.authTag key iv encrypted ++ encrypted

/-- `decryptAudio` (encryption utility, lines 154-169): slice the iv as
`subarray(0, IV_LENGTH)`, the tag as `subarray(IV_LENGTH, IV_LENGTH +
TAG_LENGTH)`, the ciphertext as `subarray(IV_LENGTH + TAG_LENGTH)`, then
authenticate and decrypt; `none` models `decipher.final()` throwing on a
tag mismatch. -/
def decryptAudio (C : GcmCipher) (key encryptedBuffer : List Nat) : Option (List Nat) :=
  let iv := encryptedBuffer.take IV_LENGTH
  let tag := (encryptedBuffer.drop IV_LENGTH).take TAG_LENGTH
  let encrypted := encryptedBuffer.drop (IV_LENGTH + TAG_LENGTH)
  if C.authTag key iv encrypted = tag then
    some (xorPad (C.pad key iv) encrypted)
  else
    none

/-- A degenerate but well-formed GCM cipher (all-zero keystream and tag),
used to evaluate the layout round-trip on concrete bytes. -/
def trivialGcm : GcmCipher :=
  ⟨fun _ _ _ => 0, fun _ _ _ => List.replicate 16 0, fun _ _ _ => by simp⟩

/-- A completed recording with no transcript columns set (concrete
instance used against the export guard). -/
def recCompletedNoTranscript : Recording :=
  { id := "rec_1700000000001_00aa11bb"
    format := "wav"
    duration_seconds := 10
    mode := .lecture
    status := .completed
    file_path := "data/recordings/rec_1700000000001_00aa11bb/audio.wav" }

/-- A completed recording whose stored confidence score is 0.8512
(a value with four decimal places, as the `DECIMAL(5,4)` column allows). -/
def recCompleted8512 : Recording :=
  { id := "rec_1700000000002_0f0f0f0f"
    format := "wav"
    duration_seconds := 60
    mode := .lecture
    status := .completed
    file_path := "data/recordings/rec_1700000000002_0f0f0f0f/audio.wav"
    raw_transcript := some "raw words"
    clean_transcript := some "clean words"
    confidence_score := some 8512
    language := some "en"
    processing_time := some "2.5s"
    segments := some []
    created_at := some "2024-01-01T00:00:00.000Z" }

end Whsp

namespace Whsp

/-- C1: the code's transcription retry behaviour, evaluated at the claim's
failing input (an AI service that fails every attempt, with the recording
row and audio file present): the pipeline makes exactly 1 attempt — not the
3 attempts (1 initial + 2 retries) the claim requires — before the
recording reaches `failed`.  (Nothing in the `recordings` schema stores a
per-stage attempt count, so no attempt count is persisted either.) -/
theorem transcription_single_attempt_code :
    processAudioAsync ⟨true, true, fun _ => none⟩ = ([.processing, .failed], 1) ∧
    (processAudioAsync ⟨true, true, fun _ => none⟩).2 ≠ 3 :=
  ⟨rfl, by decide⟩

/-- C2: for every run environment, the status history of a recording is a
chain of the allowed transitions uploaded → processing → {completed,failed},
it starts at `uploaded`, ends in a terminal state, enters `processing`
exactly once, and no allowed transition ever leaves a terminal state. -/
theorem status_state_machine (env : ProcEnv) :
    List.Chain' (fun a b => allowedTransition a b = true) (statusTrace env) ∧
    (statusTrace env).head? = some .uploaded ∧
    (∃ t, (statusTrace env).getLast? = some t ∧ isTerminal t = true) ∧
    (statusTrace env).count .processing = 1 ∧
    (∀ a b : Status, allowedTransition a b = true → isTerminal a = false) := by
  have hterm : ∀ a b : Status, allowedTransition a b = true → isTerminal a = false := by
    intro a b
    cases a <;> cases b <;> simp [allowedTransition, isTerminal]
  obtain ⟨rf, af, ai⟩ := env
  have htr : (processAudioAsync ⟨rf, af, ai⟩).1 = [.processing, .failed] ∨
      (processAudioAsync ⟨rf, af, ai⟩).1 = [.processing, .completed] := by
    cases rf <;> cases af <;> simp only [processAudioAsync] <;> (cases ai 0 <;> simp)
  rcases htr with h | h
  · refine ⟨?_, ?_, ⟨.failed, ?_, rfl⟩, ?_, hterm⟩ <;>
      simp [statusTrace, h, List.chain'_cons, allowedTransition, List.count_cons]
  · refine ⟨?_, ?_, ⟨.completed, ?_, rfl⟩, ?_, hterm⟩ <;>
      simp [statusTrace, h, List.chain'_cons, allowedTransition, List.count_cons]

/-- C3: the results payload of every failed recording is the constant
`{status:"failed", error:"Processing failed"}`, regardless of what raw or
clean transcript the recording holds — so the payload does not name the
failing stage (in particular it never mentions "transcription"), and any
transcript text produced before the failure is discarded from the
user-visible output (evaluated on a failed recording whose raw transcript
is "um so uh what was your role"). -/
theorem failed_results_payload_constant :
    (∀ (r : Recording) (s : Option SummaryRow), r.status = .failed →
      resultsHandler (some r) s = .failedMsg "Processing failed") ∧
    resultsHandler (some recFailedExample) none = .failedMsg "Processing failed" ∧
    strContains "Processing failed" "transcription" = false ∧
    strContains "Processing failed" "um so uh what was your role" = false := by
  refine ⟨?_, rfl, by decide, by decide⟩
  intro r s h
  simp [resultsHandler, h]

/-- C7: the claim's threshold is wrong: the code's only low-confidence
indication is `getConfidenceText`, whose "Low Quality" branch triggers for
scores below 0.6, not below 0.75.  A score of 0.7 is below 0.75, yet the
code reports "Medium Quality", not the low-confidence warning. -/
theorem low_confidence_threshold_cex :
    (0.7 : ℚ) < 0.75 ∧ getConfidenceText (some 0.7) = "Medium Quality" ∧
    getConfidenceText (some 0.7) ≠ "Low Quality" := by
  have h1 : getConfidenceText (some 0.7) = "Medium Quality" := by
    simp only [getConfidenceText]
    rw [if_neg (by norm_num), if_pos (by norm_num)]
  exact ⟨by norm_num, h1, by rw [h1]; decide⟩

/-- C7 (amended): the low-confidence warning ("Low Quality") is flagged
exactly when the confidence score is below 0.6; 0.55 triggers it and 0.90
yields "High Quality".  (`getConfidenceText` is a pure display helper: it
performs no status write.) -/
theorem low_confidence_threshold_amended (q : ℚ) :
    (getConfidenceText (some q) = "Low Quality" ↔ q < 0.6) ∧
    getConfidenceText (some 0.55) = "Low Quality" ∧
    getConfidenceText (some 0.9) = "High Quality" := by
  refine ⟨?_, ?_, ?_⟩
  · simp only [getConfidenceText]
    by_cases h8 : q ≥ 0.8
    · rw [if_pos h8]
      constructor
      · intro h; exact absurd h (by decide)
      · intro h; exfalso; rw [ge_iff_le] at h8; nlinarith
    · rw [if_neg h8]
      by_cases h6 : q ≥ 0.6
      · rw [if_pos h6]
        constructor
        · intro h; exact absurd h (by decide)
        · intro h; exfalso; rw [ge_iff_le] at h6; nlinarith
      · rw [if_neg h6]
        simp only [ge_iff_le, not_le] at h6
        exact ⟨fun _ => h6, fun _ => rfl⟩
  · simp only [getConfidenceText]
    rw [if_neg (by norm_num), if_neg (by norm_num)]
  · simp only [getConfidenceText]
    rw [if_pos (by norm_num)]

/-- C8: the summarization generation call never emits more than the
per-mode maximum — Lecture 400, Meeting 300, Interview 350, Custom 500
token-equivalent units — and the cap is applied inside the generation
call (`generateSummaryTokens` is the generation itself, not a post-hoc
cut of longer output). -/
theorem summary_token_budget (mode : RecordingMode) (naturalTokens : Nat) :
    generateSummaryTokens mode naturalTokens ≤ modeTokenBudget mode ∧
    modeTokenBudget .lecture = 400 ∧ modeTokenBudget .meeting = 300 ∧
    modeTokenBudget .interview = 350 ∧ modeTokenBudget .custom = 500 :=
  ⟨Nat.min_le_right _ _, rfl, rfl, rfl, rfl⟩

theorem xorPad_xorPad (ks : Nat → Nat) (l : List Nat) :
    xorPad ks (xorPad ks l) = l := by
  induction l generalizing ks with
  | nil => rfl
  | cons b rest ih => simp [xorPad, Nat.xor_cancel_right, ih]

/-- C10: for every buffer and every key (the environment-derived key is
deterministic, so encryption and decryption use the same one),
`decryptAudio (encryptAudio b) = b`: the `IV ++ Tag ++ ciphertext` layout
slices back apart losslessly and the CTR keystream XOR is an involution. -/
theorem encrypt_decrypt_roundtrip (C : GcmCipher) (key iv buffer : List Nat)
    (hiv : iv.length = IV_LENGTH) :
    decryptAudio C key (encryptAudio C key iv buffer) = some buffer := by
  have htag := C.authTag_length key iv (xorPad (C.pad key iv) buffer)
  simp only [decryptAudio, encryptAudio, List.append_assoc]
  rw [← hiv]
  rw [List.take_left, List.drop_left]
  have h32 : (C.authTag key iv (xorPad (C.pad key iv) buffer) ++
      xorPad (C.pad key iv) buffer).take TAG_LENGTH =
      C.authTag key iv (xorPad (C.pad key iv) buffer) := by
    simp only [TAG_LENGTH]
    rw [← htag]
    exact List.take_left _ _
  have h33 : (iv ++ (C.authTag key iv (xorPad (C.pad key iv) buffer) ++
      xorPad (C.pad key iv) buffer)).drop (iv.length + TAG_LENGTH) =
      xorPad (C.pad key iv) buffer := by
    simp only [TAG_LENGTH]
    rw [← List.drop_drop, List.drop_left, ← htag, List.drop_left]
  rw [h32, h33, if_pos rfl, xorPad_xorPad]

/-- C4 (counterexample): a recording in status `completed` with no raw and
no clean transcript still produces document bytes — the export guard
checks only the status, so "fails ... if and only if ... or has no
transcript" is false at this input. -/
theorem export_no_transcript_renders_cex :
    recCompletedNoTranscript.status = .completed ∧
    recCompletedNoTranscript.raw_transcript = none ∧
    recCompletedNoTranscript.clean_transcript = none ∧
    ∃ content,
      exportHandler (fun _ => "") (fun _ => "") "2024-01-01T00:00:00.000Z"
        (some recCompletedNoTranscript) none "md" = .document content :=
  ⟨rfl, rfl, rfl, ⟨_, rfl⟩⟩

/-- C4 (amended): for a valid format, document generation fails with the
immediate RenderError response exactly when the recording is not in status
`completed`; whether a transcript exists is not checked, and no document
is produced in the error case. -/
theorem export_render_error_iff (docxRender pdfRender : ExportData → String)
    (now : String) (r : Recording) (s : Option SummaryRow) (format : String)
    (hfmt : format = "md" ∨ format = "docx" ∨ format = "pdf") :
    ((∃ e st, exportHandler docxRender pdfRender now (some r) s format =
        .renderError e st) ↔ r.status ≠ .completed) ∧
    (r.status ≠ .completed → ∀ content,
      exportHandler docxRender pdfRender now (some r) s format ≠ .document content) := by
  have hred : exportHandler docxRender pdfRender now (some r) s format =
      (if r.status ≠ .completed then
        ExportOutcome.renderError "Recording is still processing or failed" r.status
      else
        .document (if format = "md" then
            generateMarkdown (exportDataOf r s now) now
          else if format = "docx" then docxRender (exportDataOf r s now)
          else pdfRender (exportDataOf r s now))) := by
    simp only [exportHandler]
    rw [if_neg (not_not_intro hfmt)]
  by_cases hc : r.status = .completed
  · rw [hred, if_neg (not_not_intro hc)]
    constructor
    · constructor
      · rintro ⟨e, st, h⟩
        exact absurd h (by simp)
      · intro h
        exact absurd hc h
    · intro h
      exact absurd hc h
  · rw [hred, if_pos hc]
    exact ⟨⟨fun _ => hc, fun _ => ⟨_, _, rfl⟩⟩, fun _ content h => by simp at h⟩

theorem strContains_eq_true_iff (s pat : String) :
    strContains s pat = true ↔ pat.data <:+: s.data := by
  simp [strContains]

theorem strContains_created (rid eid ext : String) :
    strContains ("export-" ++ rid ++ "-" ++ eid ++ "." ++ ext) eid = true := by
  rw [strContains_eq_true_iff]
  exact ⟨("export-" ++ rid ++ "-").data, ("." ++ ext).data, by simp [String.data_append]⟩

theorem strContains_self_append (eid rest : String) :
    strContains (eid ++ rest) eid = true := by
  rw [strContains_eq_true_iff]
  exact ⟨[], rest.data, by simp [String.data_append]⟩

theorem find?_append_none {α : Type} {p : α → Bool} {l₁ l₂ : List α}
    (h : ∀ f ∈ l₁, p f = false) : (l₁ ++ l₂).find? p = l₂.find? p := by
  induction l₁ with
  | nil => rfl
  | cons a l ih =>
    rw [List.cons_append, List.find?_cons_of_neg, ih]
    · intro b hb
      exact h b (List.mem_cons_of_mem a hb)
    · simp [h a (List.mem_cons_self a l)]

theorem takeWhile_append_not {p : Char → Bool} (l₁ : List Char) (c : Char)
    (l₂ : List Char) (h1 : ∀ x ∈ l₁, p x = true) (hc : p c = false) :
    (l₁ ++ c :: l₂).takeWhile p = l₁ := by
  induction l₁ with
  | nil => simp [List.takeWhile_cons, hc]
  | cons a l ih =>
    rw [List.cons_append, List.takeWhile_cons, h1 a (List.mem_cons_self a l),
      if_pos rfl, ih]
    intro b hb
    exact h1 b (List.mem_cons_of_mem a hb)

theorem extname_created (base ext : String) (hext : ∀ c ∈ ext.data, c ≠ '.') :
    extnameAfterDot (base ++ "." ++ ext) = ext := by
  unfold extnameAfterDot
  rw [if_pos (by simp [String.data_append])]
  have hrev : (base ++ "." ++ ext).data.reverse =
      ext.data.reverse ++ '.' :: base.data.reverse := by
    simp [String.data_append]
  rw [hrev, takeWhile_append_not]
  · simp
  · intro x hx
    rw [List.mem_reverse] at hx
    simpa using hext x hx
  · simp

theorem getExportInfo_createExportFile (store : List StoredFile)
    (rid eid ext : String) (content : List Nat) (T : Nat)
    (hfresh : ∀ f ∈ store, strContains f.filename eid = false)
    (hext : ∀ c ∈ ext.data, c ≠ '.') :
    getExportInfo (createExportFile store rid eid ext content T) eid =
      some ⟨eid, rid, ext, T, T + EXPORT_EXPIRY_MS, 0⟩ := by
  have hp : strContains ("export-" ++ rid ++ "-" ++ eid ++ "." ++ ext) eid = true :=
    strContains_created rid eid ext
  have hex : extnameAfterDot ("export-" ++ rid ++ "-" ++ eid ++ "." ++ ext) = ext :=
    extname_created ("export-" ++ rid ++ "-" ++ eid) ext hext
  unfold getExportInfo createExportFile saveExport
  rw [find?_append_none hfresh]
  simp [hp, hex]

theorem readExport_createExportFile (store : List StoredFile)
    (rid eid ext : String) (content : List Nat) (T : Nat)
    (hfresh : ∀ f ∈ store, strContains f.filename eid = false) :
    readExport (createExportFile store rid eid ext content T) eid = some content := by
  have hp : strContains ("export-" ++ rid ++ "-" ++ eid ++ "." ++ ext) eid = true :=
    strContains_created rid eid ext
  unfold readExport createExportFile saveExport
  rw [find?_append_none hfresh]
  simp [hp]

theorem deleteExport_probe_misses (store : List StoredFile)
    (rid eid ext : String) (content : List Nat) (T : Nat)
    (hfresh : ∀ f ∈ store, strContains f.filename eid = false) :
    deleteExport (createExportFile store rid eid ext content T) rid
      (eid ++ "." ++ ext) =
      (createExportFile store rid eid ext content T, false) := by
  unfold deleteExport
  rw [if_neg]
  intro hany
  rw [List.any_eq_true] at hany
  obtain ⟨f, hf, hp⟩ := hany
  have hname : f.filename = eid ++ "." ++ ext := by
    have := (Bool.and_eq_true _ _).mp hp
    exact eq_of_beq this.2
  unfold createExportFile saveExport at hf
  rcases List.mem_append.mp hf with hf | hf
  · have hct : strContains f.filename eid = true := by
      rw [hname, String.append_assoc]
      exact strContains_self_append eid ("." ++ ext)
    rw [hfresh f hf] at hct
    exact Bool.false_ne_true hct
  · have hfn : f.filename = "export-" ++ rid ++ "-" ++ eid ++ "." ++ ext := by
      rcases List.mem_singleton.mp hf with rfl
      rfl
    have hlen := congrArg String.length (hfn ▸ hname)
    simp only [String.length_append] at hlen
    have h7 : ("export-" : String).length = 7 := rfl
    have h1 : ("-" : String).length = 1 := rfl
    have hd : ("." : String).length = 1 := rfl
    omega

/-- C9: for every artifact created through the export-creation endpoint
(stored as `export-<recordingId>-<exportId>.<ext>`, with the export id
fresh for the store and a dot-free extension), the single-artifact delete
endpoint rebuilds the path as `<exportId>.<format>`, never matches the
stored filename, and therefore answers the not-deleted result
(`'Export file not found'`) while leaving the store unchanged. -/
theorem delete_export_path_mismatch (store : List StoredFile)
    (rid eid ext : String) (content : List Nat) (T : Nat)
    (hfresh : ∀ f ∈ store, strContains f.filename eid = false)
    (hext : ∀ c ∈ ext.data, c ≠ '.') :
    deleteExportEndpoint (createExportFile store rid eid ext content T) eid =
      (createExportFile store rid eid ext content T,
        .fileNotFound "Export file not found") := by
  unfold deleteExportEndpoint
  rw [getExportInfo_createExportFile store rid eid ext content T hfresh hext]
  simp only
  rw [deleteExport_probe_misses store rid eid ext content T hfresh]
  simp

/-- C9 (witness): the path-mismatch theorem evaluated on a store holding
exactly one artifact just created for recording `rec_1_aa`. -/
theorem delete_export_path_mismatch_witness :
    ((∀ f ∈ ([] : List StoredFile), strContains f.filename "e1" = false) ∧
      (∀ c ∈ ("md" : String).data, c ≠ '.')) ∧
    deleteExportEndpoint (createExportFile [] "rec_1_aa" "e1" "md" [104] 0) "e1" =
      (createExportFile [] "rec_1_aa" "e1" "md" [104] 0,
        .fileNotFound "Export file not found") :=
  ⟨⟨by simp, by decide⟩,
    delete_export_path_mismatch [] "rec_1_aa" "e1" "md" [104] 0 (by simp) (by decide)⟩

/-- C5: an artifact created at time `T` (TTL 15 min) still downloads at
`T + 10 min` as its stored bytes with expiry metadata; at `T + 16 min` the
lookup answers the explicit expired result (HTTP 410,
`'Export has expired'`), which is a different result from the not-found
answer (HTTP 404, `'Export not found or expired'`) an unknown artifact id
receives. -/
theorem export_expiry_lifecycle (store : List StoredFile)
    (rid eid ext unknownId : String) (content : List Nat) (T : Nat)
    (hfresh : ∀ f ∈ store, strContains f.filename eid = false)
    (hext : ∀ c ∈ ext.data, c ≠ '.')
    (hunk : ∀ f ∈ createExportFile store rid eid ext content T,
      strContains f.filename unknownId = false) :
    downloadExport (createExportFile store rid eid ext content T)
        (T + 10 * 60 * 1000) eid = .bytes content (T + EXPORT_EXPIRY_MS) ∧
    downloadExport (createExportFile store rid eid ext content T)
        (T + 16 * 60 * 1000) eid = .expired "Export has expired" ∧
    downloadExport (createExportFile store rid eid ext content T)
        (T + 16 * 60 * 1000) unknownId = .notFound "Export not found or expired" ∧
    (DownloadResult.expired "Export has expired" ≠
      DownloadResult.notFound "Export not found or expired") := by
  refine ⟨?_, ?_, ?_, by simp⟩
  · unfold downloadExport
    rw [getExportInfo_createExportFile store rid eid ext content T hfresh hext]
    simp only
    rw [if_neg (by simp only [EXPORT_EXPIRY_MS]; omega),
      readExport_createExportFile store rid eid ext content T hfresh]
  · unfold downloadExport
    rw [getExportInfo_createExportFile store rid eid ext content T hfresh hext]
    simp only
    rw [if_pos (by simp only [EXPORT_EXPIRY_MS]; omega)]
  · unfold downloadExport
    have hfind : List.find? (fun f => strContains f.filename unknownId)
        (createExportFile store rid eid ext content T) = none :=
      List.find?_eq_none.mpr (fun f hf => by simp [hunk f hf])
    have hnone : getExportInfo (createExportFile store rid eid ext content T)
        unknownId = none := by
      unfold getExportInfo
      rw [hfind]
      rfl
    rw [hnone]

/-- C5 (witness): the expiry lifecycle theorem evaluated at `T = 0` on a
store holding exactly one just-created artifact, with `zz` as the unknown
id. -/
theorem export_expiry_lifecycle_witness :
    ((∀ f ∈ ([] : List StoredFile), strContains f.filename "e1" = false) ∧
      (∀ c ∈ ("md" : String).data, c ≠ '.') ∧
      (∀ f ∈ createExportFile [] "rec_1_aa" "e1" "md" [104, 105] 0,
        strContains f.filename "zz" = false)) ∧
    (downloadExport (createExportFile [] "rec_1_aa" "e1" "md" [104, 105] 0)
        (0 + 10 * 60 * 1000) "e1" = .bytes [104, 105] (0 + EXPORT_EXPIRY_MS) ∧
    downloadExport (createExportFile [] "rec_1_aa" "e1" "md" [104, 105] 0)
        (0 + 16 * 60 * 1000) "e1" = .expired "Export has expired" ∧
    downloadExport (createExportFile [] "rec_1_aa" "e1" "md" [104, 105] 0)
        (0 + 16 * 60 * 1000) "zz" = .notFound "Export not found or expired" ∧
    (DownloadResult.expired "Export has expired" ≠
      DownloadResult.notFound "Export not found or expired")) :=
  ⟨⟨by simp, by decide, by decide⟩,
    export_expiry_lifecycle [] "rec_1_aa" "e1" "md" "zz" [104, 105] 0
      (by simp) (by decide) (by decide)⟩

theorem natDigitsAux_lt (fuel n : Nat) (hn : n < fuel) :
    ∀ d ∈ natDigitsAux fuel n, d < 10 := by
  induction fuel generalizing n with
  | zero => omega
  | succ fuel ih =>
    intro d hd
    rw [natDigitsAux] at hd
    by_cases h : n < 10
    · rw [if_pos h] at hd
      rw [List.mem_singleton] at hd
      omega
    · rw [if_neg h] at hd
      rcases List.mem_append.mp hd with hd | hd
      · have hlt : n / 10 < n := Nat.div_lt_self (by omega) (by omega)
        exact ih (n / 10) (by omega) d hd
      · rw [List.mem_singleton] at hd
        omega

theorem natDigits_lt (n : Nat) : ∀ d ∈ natDigits n, d < 10 :=
  natDigitsAux_lt (n + 1) n (Nat.lt_succ_self n)

theorem natDigits_of_lt (n : Nat) (h : n < 10) : natDigits n = [n] := by
  rw [natDigits, natDigitsAux, if_pos h]

theorem digitsVal_append (xs : List Nat) (d : Nat) :
    digitsVal (xs ++ [d]) = digitsVal xs * 10 + d := by
  simp [digitsVal, List.foldl_append]

theorem digitsVal_natDigitsAux (fuel n : Nat) (hn : n < fuel) :
    digitsVal (natDigitsAux fuel n) = n := by
  induction fuel generalizing n with
  | zero => omega
  | succ fuel ih =>
    rw [natDigitsAux]
    by_cases h : n < 10
    · rw [if_pos h]
      simp [digitsVal]
    · rw [if_neg h, digitsVal_append]
      have hlt : n / 10 < n := Nat.div_lt_self (by omega) (by omega)
      rw [ih (n / 10) (by omega)]
      omega

theorem digitsVal_natDigits (n : Nat) : digitsVal (natDigits n) = n :=
  digitsVal_natDigitsAux (n + 1) n (Nat.lt_succ_self n)

theorem charDigit_digitChar (d : Nat) (h : d < 10) :
    charDigit (digitChar d) = d := by
  interval_cases d <;> decide

theorem digitChar_isDigit (d : Nat) (h : d < 10) :
    (digitChar d).isDigit = true := by
  interval_cases d <;> decide

theorem digitChar_ne_newline (d : Nat) (h : d < 10) : digitChar d ≠ '\n' := by
  interval_cases d <;> decide

theorem natToString_no_newline (n : Nat) : '\n' ∉ (natToString n).data := by
  intro hmem
  have hm : '\n' ∈ (natDigits n).map digitChar := hmem
  rcases List.mem_map.mp hm with ⟨d, hd, hEq⟩
  exact digitChar_ne_newline d (natDigits_lt n d hd) hEq

theorem percentString_no_newline (v : Nat) :
    '\n' ∉ (percentStringOf v).data := by
  intro hmem
  unfold percentStringOf at hmem
  rw [String.data_append, String.data_append, String.data_append] at hmem
  rcases List.mem_append.mp hmem with h | h
  · rcases List.mem_append.mp h with h | h
    · rcases List.mem_append.mp h with h | h
      · exact natToString_no_newline _ h
      · simp at h
    · exact natToString_no_newline _ h
  · simp at h

theorem confString_no_newline (q : Nat) :
    '\n' ∉ (confidencePercentString q).data :=
  percentString_no_newline (jsToFixedTenths q)

theorem newline_notin_append (a b : String) (ha : '\n' ∉ a.data)
    (hb : '\n' ∉ b.data) : '\n' ∉ (a ++ b).data := by
  intro h
  rw [String.data_append] at h
  rcases List.mem_append.mp h with h | h
  · exact ha h
  · exact hb h

theorem mode_str_no_newline (m : RecordingMode) : '\n' ∉ m.str.data := by
  cases m <;> decide

theorem splitLines_ne_nil (cs : List Char) : splitLines cs ≠ [] := by
  induction cs with
  | nil => simp [splitLines]
  | cons c rest ih =>
    simp only [splitLines]
    rcases hr : splitLines rest with _ | ⟨l, ls⟩
    · exact absurd hr ih
    · simp only [hr]
      split <;> simp

theorem splitLines_append_newline (a b : List Char) (ha : '\n' ∉ a) :
    splitLines (a ++ '\n' :: b) = a :: splitLines b := by
  induction a with
  | nil =>
    simp only [List.nil_append, splitLines]
    rcases hr : splitLines b with _ | ⟨l, ls⟩
    · exact absurd hr (splitLines_ne_nil b)
    · simp
  | cons c a ih =>
    have hc : c ≠ '\n' := fun h => ha (h ▸ List.mem_cons_self c a)
    have ha' : '\n' ∉ a := fun h => ha (List.mem_cons_of_mem c h)
    simp only [List.cons_append, splitLines, List.append_eq, ih ha']
    rw [if_neg hc]

theorem splitLines_joinLines_cons (l : String) (t : List String)
    (hl : '\n' ∉ l.data) (ht : t ≠ []) :
    splitLines (joinLines (l :: t)).data =
      l.data :: splitLines (joinLines t).data := by
  rcases t with _ | ⟨m, ls⟩
  · exact absurd rfl ht
  · have hj : (joinLines (l :: m :: ls)).data =
        l.data ++ '\n' :: (joinLines (m :: ls)).data := by
      show ((l ++ "\n" ++ joinLines (m :: ls))).data = _
      rw [String.data_append, String.data_append]
      simp
    rw [hj, splitLines_append_newline _ _ hl]

theorem splitLines_joinLines_append (L t : List String)
    (hL : ∀ l ∈ L, '\n' ∉ l.data) (ht : t ≠ []) :
    splitLines (joinLines (L ++ t)).data =
      L.map String.data ++ splitLines (joinLines t).data := by
  induction L with
  | nil => simp
  | cons l L ih =>
    rw [List.cons_append,
      splitLines_joinLines_cons l (L ++ t) (hL l (List.mem_cons_self l L))
        (fun h => ht (List.append_eq_nil.mp h).2),
      ih (fun x hx => hL x (List.mem_cons_of_mem l hx))]
    rfl

theorem map_mk_data (L : List String) :
    (L.map String.data).map (fun cs => (⟨cs⟩ : String)) = L := by
  induction L with
  | nil => rfl
  | cons l L ih => simp [ih]

theorem extractAfter_of_take_ne (pre l : String)
    (h : l.data.take pre.data.length ≠ pre.data) : extractAfter pre l = none :=
  if_neg h

theorem extractAfter_append (pre s : String) :
    extractAfter pre (pre ++ s) = some s := by
  unfold extractAfter
  have h1 : ((pre ++ s) : String).data = pre.data ++ s.data := String.data_append pre s
  rw [h1, List.take_left, List.drop_left, if_pos rfl]

theorem extractAfter_const_append_none (pre c s : String)
    (hlen : pre.data.length ≤ c.data.length)
    (h : c.data.take pre.data.length ≠ pre.data) :
    extractAfter pre (c ++ s) = none := by
  apply extractAfter_of_take_ne
  rw [String.data_append, List.take_append_of_le_length hlen]
  exact h

theorem extractAfter_append_none_of_mismatch (pre c s : String) (i : Nat)
    (hic : i < c.data.length) (hip : i < pre.data.length)
    (hne : c.data[i]? ≠ pre.data[i]?) :
    extractAfter pre (c ++ s) = none := by
  apply extractAfter_of_take_ne
  rw [String.data_append]
  intro hEq
  apply hne
  have hap : (c.data ++ s.data)[i]? = c.data[i]? := by
    rw [List.getElem?_append, if_pos hic]
  have htk : ((c.data ++ s.data).take pre.data.length)[i]? =
      (c.data ++ s.data)[i]? := by
    rw [List.getElem?_take, if_pos hip]
  rw [← hap, ← htk, hEq]

theorem fieldOf_meta_rid (data : ExportData) (rest : List String) :
    fieldOf (mdMetaLines data ++ rest) "Recording ID" = some data.recordingId := by
  have hpre : ("- **" ++ "Recording ID" ++ "**: " : String) =
      "- **Recording ID**: " := rfl
  have e0 : extractAfter "- **Recording ID**: " "# Whisper Export" = none := by decide
  have e1 : extractAfter "- **Recording ID**: " "" = none := by decide
  have e2 : extractAfter "- **Recording ID**: " "---" = none := by decide
  have e4 : extractAfter "- **Recording ID**: " "## Metadata" = none := by decide
  have e6 : extractAfter "- **Recording ID**: "
      ("- **Recording ID**: " ++ data.recordingId) = some data.recordingId :=
    extractAfter_append _ _
  unfold fieldOf mdMetaLines
  simp only [hpre, List.cons_append, List.nil_append, List.filterMap_cons,
    e0, e1, e2, e4, e6, List.head?_cons]

theorem fieldOf_meta_mode (data : ExportData) (rest : List String) :
    fieldOf (mdMetaLines data ++ rest) "Mode" = some data.mode := by
  have hpre : ("- **" ++ "Mode" ++ "**: " : String) = "- **Mode**: " := rfl
  have e0 : extractAfter "- **Mode**: " "# Whisper Export" = none := by decide
  have e1 : extractAfter "- **Mode**: " "" = none := by decide
  have e2 : extractAfter "- **Mode**: " "---" = none := by decide
  have e4 : extractAfter "- **Mode**: " "## Metadata" = none := by decide
  have e6 : extractAfter "- **Mode**: "
      ("- **Recording ID**: " ++ data.recordingId) = none :=
    extractAfter_const_append_none _ _ _ (by decide) (by decide)
  have e7 : extractAfter "- **Mode**: " ("- **Mode**: " ++ data.mode) =
      some data.mode := extractAfter_append _ _
  unfold fieldOf mdMetaLines
  simp only [hpre, List.cons_append, List.nil_append, List.filterMap_cons,
    e0, e1, e2, e4, e6, e7, List.head?_cons]

theorem fieldOf_meta_conf (data : ExportData) (rest : List String) :
    fieldOf (mdMetaLines data ++ rest) "Confidence" =
      some (confidencePercentString data.transcript.confidenceScore) := by
  have hpre : ("- **" ++ "Confidence" ++ "**: " : String) =
      "- **Confidence**: " := rfl
  have e0 : extractAfter "- **Confidence**: " "# Whisper Export" = none := by decide
  have e1 : extractAfter "- **Confidence**: " "" = none := by decide
  have e2 : extractAfter "- **Confidence**: " "---" = none := by decide
  have e4 : extractAfter "- **Confidence**: " "## Metadata" = none := by decide
  have e6 : extractAfter "- **Confidence**: "
      ("- **Recording ID**: " ++ data.recordingId) = none :=
    extractAfter_const_append_none _ _ _ (by decide) (by decide)
  have e7 : extractAfter "- **Confidence**: " ("- **Mode**: " ++ data.mode) = none :=
    extractAfter_append_none_of_mismatch _ _ _ 4 (by decide) (by decide) (by decide)
  have e8 : extractAfter "- **Confidence**: "
      ("- **Created**: " ++ data.createdAt) = none :=
    extractAfter_append_none_of_mismatch _ _ _ 5 (by decide) (by decide) (by decide)
  have e9 : extractAfter "- **Confidence**: "
      ("- **Language**: " ++ data.language) = none :=
    extractAfter_append_none_of_mismatch _ _ _ 4 (by decide) (by decide) (by decide)
  have e10 : extractAfter "- **Confidence**: " ("- **Confidence**: " ++
      confidencePercentString data.transcript.confidenceScore) =
      some (confidencePercentString data.transcript.confidenceScore) :=
    extractAfter_append _ _
  unfold fieldOf mdMetaLines
  simp only [hpre, List.cons_append, List.nil_append, List.filterMap_cons,
    e0, e1, e2, e4, e6, e7, e8, e9, e10, List.head?_cons]

theorem parsePercent_percentStringOf (v : Nat) :
    parsePercentMyriad (percentStringOf v) = 10 * v := by
  unfold parsePercentMyriad percentStringOf
  congr 1
  have hD : ("." : String).data = ['.'] := rfl
  have hP : ("%" : String).data = ['%'] := rfl
  have hdig : ∀ n : Nat,
      (natToString n).data.filter (fun c => c.isDigit) = (natToString n).data := by
    intro n
    rw [List.filter_eq_self]
    intro c hc
    have hm : c ∈ (natDigits n).map digitChar := hc
    rcases List.mem_map.mp hm with ⟨d, hd, rfl⟩
    exact digitChar_isDigit d (natDigits_lt n d hd)
  have hmapback : ∀ L : List Nat, (∀ d ∈ L, d < 10) →
      (L.map digitChar).map charDigit = L := by
    intro L hL
    rw [List.map_map]
    have hcg : ∀ d ∈ L, (charDigit ∘ digitChar) d = id d :=
      fun d hd => charDigit_digitChar d (hL d hd)
    rw [List.map_congr_left hcg, List.map_id]
  rw [String.data_append, String.data_append, String.data_append, hD, hP,
    List.filter_append, List.filter_append, List.filter_append]
  have hdot : List.filter (fun c => c.isDigit) ['.'] = [] := by decide
  have hpct : List.filter (fun c => c.isDigit) ['%'] = [] := by decide
  rw [hdot, hpct, hdig, hdig, List.append_nil, List.append_nil]
  have hnw : (natToString (v / 10)).data =
      (natDigits (v / 10)).map digitChar := rfl
  have hnd : (natToString (v % 10)).data =
      (natDigits (v % 10)).map digitChar := rfl
  rw [hnw, hnd, ← List.map_append]
  rw [hmapback _ (by
    intro d hd
    rcases List.mem_append.mp hd with h | h
    · exact natDigits_lt _ d h
    · exact natDigits_lt _ d h)]
  have hf : natDigits (v % 10) = [v % 10] :=
    natDigits_of_lt _ (Nat.mod_lt _ (by omega))
  rw [hf, digitsVal_append, digitsVal_natDigits]
  omega

theorem parsePercent_confString (q : Nat) :
    parsePercentMyriad (confidencePercentString q) = 10 * jsToFixedTenths q :=
  parsePercent_percentStringOf (jsToFixedTenths q)

theorem mdLines_generateMarkdown (data : ExportData) (now : String)
    (hid : '\n' ∉ data.recordingId.data) (hmode : '\n' ∉ data.mode.data)
    (hcr : '\n' ∉ data.createdAt.data) (hlang : '\n' ∉ data.language.data) :
    mdLines (generateMarkdown data now) =
      mdMetaLines data ++
        (splitLines (joinLines ("" :: "---" :: "" ::
          (mdSummaryLines data ++ mdBodyLines data now))).data).map
          (fun cs => (⟨cs⟩ : String)) := by
  have hL : ∀ l ∈ mdMetaLines data, '\n' ∉ l.data := by
    intro l hl
    simp only [mdMetaLines, List.mem_cons, List.not_mem_nil, or_false] at hl
    rcases hl with rfl | rfl | rfl | rfl | rfl | rfl | rfl | rfl | rfl | rfl | rfl
    · decide
    · decide
    · decide
    · decide
    · decide
    · decide
    · exact newline_notin_append _ _ (by decide) hid
    · exact newline_notin_append _ _ (by decide) hmode
    · exact newline_notin_append _ _ (by decide) hcr
    · exact newline_notin_append _ _ (by decide) hlang
    · exact newline_notin_append _ _ (by decide) (confString_no_newline _)
  unfold mdLines generateMarkdown generateMarkdownLines
  rw [splitLines_joinLines_append (mdMetaLines data) _ hL (by simp),
    List.map_append, map_mk_data]

set_option maxRecDepth 100000 in
/-- C6 (counterexample): a completed recording stores
`confidence_score = 0.8512`, but its markdown export prints the confidence
as `85.1%` (`toFixed(1)` of the percentage, on the binary double), so
parsing the confidence back yields 0.8510 (`8510` ten-thousandths), not
the stored `8512` — the claimed exact round-trip fails at this input. -/
theorem markdown_roundtrip_cex :
    recCompleted8512.confidence_score = some 8512 ∧
    parseConfidence (generateMarkdown
        (exportDataOf recCompleted8512 none "2024-01-02T00:00:00.000Z")
        "2024-01-02T00:00:00.000Z") = some 8510 ∧
    (8510 : Nat) ≠ 8512 :=
  ⟨rfl, by decide, by decide⟩

/-- C6 (amended): re-parsing the markdown export of a completed recording
(whose id, creation timestamp and language have no newline characters)
recovers the recordingId exactly and the mode string exactly (and the mode
string determines the stored mode); the confidence is printed as
`(score * 100).toFixed(1)` of the binary double, so the re-parsed value is
exactly the tenths-of-a-percent the program printed (`jsToFixedTenths`) —
always a multiple of 0.001 — and a stored `DECIMAL(5,4)` score that is not
a multiple of 0.001 is never recovered exactly. -/
theorem markdown_roundtrip_amended (rec : Recording) (s : Option SummaryRow)
    (now : String)
    (hid : '\n' ∉ rec.id.data)
    (hcr : '\n' ∉ (rec.created_at.getD now).data)
    (hlang : '\n' ∉ (rec.language.getD "unknown").data) :
    parseField (generateMarkdown (exportDataOf rec s now) now) "Recording ID" =
      some rec.id ∧
    parseField (generateMarkdown (exportDataOf rec s now) now) "Mode" =
      some rec.mode.str ∧
    (∀ m₁ m₂ : RecordingMode, m₁.str = m₂.str → m₁ = m₂) ∧
    parseConfidence (generateMarkdown (exportDataOf rec s now) now) =
      some (10 * jsToFixedTenths (rec.confidence_score.getD 0)) ∧
    (rec.confidence_score.getD 0 % 10 ≠ 0 →
      parseConfidence (generateMarkdown (exportDataOf rec s now) now) ≠
        some (rec.confidence_score.getD 0)) := by
  have hmd := mdLines_generateMarkdown (exportDataOf rec s now) now hid
    (mode_str_no_newline rec.mode) hcr hlang
  have hconf : parseConfidence (generateMarkdown (exportDataOf rec s now) now) =
      some (10 * jsToFixedTenths (rec.confidence_score.getD 0)) := by
    unfold parseConfidence parseField
    rw [hmd, fieldOf_meta_conf]
    simp only [Option.map_some', parsePercent_confString]
    rfl
  refine ⟨?_, ?_, ?_, hconf, ?_⟩
  · unfold parseField
    rw [hmd, fieldOf_meta_rid]
    rfl
  · unfold parseField
    rw [hmd, fieldOf_meta_mode]
    rfl
  · intro m₁ m₂ h
    cases m₁ <;> cases m₂ <;> first | rfl | exact absurd h (by decide)
  · intro hq hEq
    rw [hconf] at hEq
    have := Option.some.inj hEq
    omega

/-- C6 (witness): the amended round-trip theorem applied to the concrete
completed recording `recCompleted8512`, whose score `8512` is not a
multiple of 10, exhibiting the exact id/mode recovery, the parse result,
and the non-recovery of the four-decimal score. -/
theorem markdown_roundtrip_amended_witness :
    ('\n' ∉ recCompleted8512.id.data ∧
      '\n' ∉ (recCompleted8512.created_at.getD "2024-01-02T00:00:00.000Z").data ∧
      '\n' ∉ (recCompleted8512.language.getD "unknown").data) ∧
    (parseField (generateMarkdown
        (exportDataOf recCompleted8512 none "2024-01-02T00:00:00.000Z")
        "2024-01-02T00:00:00.000Z") "Recording ID" = some recCompleted8512.id ∧
    parseField (generateMarkdown
        (exportDataOf recCompleted8512 none "2024-01-02T00:00:00.000Z")
        "2024-01-02T00:00:00.000Z") "Mode" = some recCompleted8512.mode.str ∧
    (∀ m₁ m₂ : RecordingMode, m₁.str = m₂.str → m₁ = m₂) ∧
    parseConfidence (generateMarkdown
        (exportDataOf recCompleted8512 none "2024-01-02T00:00:00.000Z")
        "2024-01-02T00:00:00.000Z") =
      some (10 * jsToFixedTenths (recCompleted8512.confidence_score.getD 0)) ∧
    (recCompleted8512.confidence_score.getD 0 % 10 ≠ 0 →
      parseConfidence (generateMarkdown
          (exportDataOf recCompleted8512 none "2024-01-02T00:00:00.000Z")
          "2024-01-02T00:00:00.000Z") ≠
        some (recCompleted8512.confidence_score.getD 0))) :=
  ⟨⟨by decide, by decide, by decide⟩,
    markdown_roundtrip_amended recCompleted8512 none "2024-01-02T00:00:00.000Z"
      (by decide) (by decide) (by decide)⟩

/-- C3 (witness): the failed-payload theorem applied to the concrete failed
recording that holds a raw transcript. -/
theorem failed_results_payload_constant_witness :
    recFailedExample.status = .failed ∧
    resultsHandler (some recFailedExample) none = .failedMsg "Processing failed" :=
  ⟨rfl, failed_results_payload_constant.1 recFailedExample none rfl⟩

/-- C10 (witness): the round-trip theorem evaluated on the degenerate
cipher, a concrete 16-byte iv and the buffer `[1, 2, 3]`. -/
theorem encrypt_decrypt_roundtrip_witness :
    (List.replicate 16 3 : List Nat).length = IV_LENGTH ∧
    decryptAudio trivialGcm [7]
      (encryptAudio trivialGcm [7] (List.replicate 16 3) [1, 2, 3]) =
      some [1, 2, 3] :=
  ⟨by decide,
    encrypt_decrypt_roundtrip trivialGcm [7] (List.replicate 16 3) [1, 2, 3]
      (by decide)⟩

/-- C4 (witness): the amended theorem applied to the failed example
recording and the format "md". -/
theorem export_render_error_iff_witness :
    ("md" = "md" ∨ "md" = "docx" ∨ "md" = "pdf") ∧
    (((∃ e st, exportHandler (fun _ => "") (fun _ => "") "t"
        (some recFailedExample) none "md" = .renderError e st) ↔
      recFailedExample.status ≠ .completed) ∧
    (recFailedExample.status ≠ .completed → ∀ content,
      exportHandler (fun _ => "") (fun _ => "") "t"
        (some recFailedExample) none "md" ≠ .document content)) :=
  ⟨Or.inl rfl,
    export_render_error_iff (fun _ => "") (fun _ => "") "t"
      recFailedExample none "md" (Or.inl rfl)⟩

end Whsp
